import Mathlib

/-!
The WASI process entry point `main` (src/mono/wasi/runtime/main.c)

`main` is a straight-line sequence of calls into an external runtime, with two
failure checks.  The embedding below keeps that shape:

* the runtime is abstract: a record `Runtime σ` of the collaborator functions
  over an arbitrary runtime-global state `σ`; every collaborator is a total
  state transformer (a call that is made returns);
* opaque handles (`MonoAssembly*`, `MonoMethod*`, `MonoObject*`, `int*`) are
  addresses, `0` being `NULL`;
* C strings (`const char*`, the elements of `argv`) are `String`s, `int` is `Int`
  (no arithmetic is done on it);
* a `World σ` carries the runtime state and what `main` itself wrote to `stderr`;
  `main` keeps no log of its own;
* `exit(1)` and `return ret` are the two ways `main` ends: `Outcome`;
* the calls a run makes are observed on the runtime side: `recording R` is the
  runtime `R` whose every collaborator, when it is entered, appends the call it
  received (arguments and answer) to a log kept in the runtime state, and
  `calls` is that log after `main` has run against it.  An event is in `calls`
  only if `main` really applied the collaborator, to those arguments, on the
  state that holds the earlier events.
-/

namespace WasiMain

/-- An opaque pointer handed out by the runtime; `0` is `NULL`. -/
abbrev Handle := Nat

/-- The null pointer. -/
abbrev NULL : Handle := 0

/-- One call received by a collaborator, with the arguments it was given and
what it answered.  `getbundledfile` is declared in main.c (line 9) and is part
of the collaborator interface although `main` has no call site for it. -/
inductive Event where
  | registerbundledassemblies
  | after_runtime_loaded (i : Nat)
  | load_runtime (unused : String) (debug_level : Int)
  | getentrypointassemblyname (result : String)
  | assembly_open (filename : String) (status : Handle) (result : Handle)
  | get_entry_point (assembly : Handle) (result : Handle)
  | run_main (method : Handle) (argc : Int) (argv : List String) (result : Int)
      (exc : Handle)
  | print_unhandled_exception (exc : Handle)
  | getbundledfile (name : String) (out_length : Handle) (result : Handle)
  deriving DecidableEq, Repr

/-- The external collaborators of `main`, over a runtime-global state `σ`.
`mono_runtime_run_main` receives the content of the cell `out_exc` that its last
argument points to and returns the `int` result together with the content of
that cell after the call. -/
structure Runtime (σ : Type) where
  dotnet_wasi_getentrypointassemblyname : σ → String × σ
  dotnet_wasi_getbundledfile : String → Handle → σ → Handle × σ
  dotnet_wasi_registerbundledassemblies : σ → σ
  mono_wasm_load_runtime : String → Int → σ → σ
  mono_assembly_open : String → Handle → σ → Handle × σ
  mono_wasi_assembly_get_entry_point : Handle → σ → Handle × σ
  mono_runtime_run_main : Handle → Int → List String → Handle → σ → (Int × Handle) × σ
  mono_print_unhandled_exception : Handle → σ → σ

/-- Everything a run of `main` acts on: the runtime-global state and the error
stream as written by `main`. -/
structure World (σ : Type) where
  rt : σ
  stderr : String

/-- The world at process start: nothing written. -/
def World.start {σ : Type} (s : σ) : World σ :=
  { rt := s, stderr := "" }

/-- How `main` ends: `return ret;` or `exit(status);`. -/
inductive Outcome where
  | returned (ret : Int)
  | exited (status : Int)
  deriving DecidableEq, Repr

/-- The exit code of the process: returning `ret` from `main` ends the process
with `ret`, `exit(status)` ends it with `status`. -/
def Outcome.exit_code : Outcome → Int
  | .returned ret => ret
  | .exited status => status

variable {σ : Type}

/-- Line 19: `dotnet_wasi_registerbundledassemblies();` -/
def call_registerbundledassemblies (R : Runtime σ) (w : World σ) : World σ :=
  { w with rt := R.dotnet_wasi_registerbundledassemblies w.rt }

/-- Modelled from the spec: the expansion of the macro
`WASI_AFTER_RUNTIME_LOADED_CALLS` (lines 21-24), which the build supplies from
the item group `@(WasiAfterRuntimeLoaded)` and which is absent from the source
file.  The spec describes it as a configurable list of zero or more
zero-argument initialization callables executed in declaration order. -/
def WASI_AFTER_RUNTIME_LOADED_CALLS : List (σ → σ) → World σ → World σ
  | [], w => w
  | h :: hooks, w => WASI_AFTER_RUNTIME_LOADED_CALLS hooks { w with rt := h w.rt }

/-- Line 29: `mono_wasm_load_runtime("", 0);` -/
def call_load_runtime (R : Runtime σ) (unused : String) (debug_level : Int)
    (w : World σ) : World σ :=
  { w with rt := R.mono_wasm_load_runtime unused debug_level w.rt }

/-- Line 31: `dotnet_wasi_getentrypointassemblyname()`. -/
def call_getentrypointassemblyname (R : Runtime σ) (w : World σ) : String × World σ :=
  let r := R.dotnet_wasi_getentrypointassemblyname w.rt
  (r.1, { w with rt := r.2 })

/-- Line 32: `mono_assembly_open(filename, status)`. -/
def call_assembly_open (R : Runtime σ) (filename : String) (status : Handle)
    (w : World σ) : Handle × World σ :=
  let r := R.mono_assembly_open filename status w.rt
  (r.1, { w with rt := r.2 })

/-- Line 33: `mono_wasi_assembly_get_entry_point (assembly)`. -/
def call_get_entry_point (R : Runtime σ) (assembly : Handle)
    (w : World σ) : Handle × World σ :=
  let r := R.mono_wasi_assembly_get_entry_point assembly w.rt
  (r.1, { w with rt := r.2 })

/-- Line 41: `mono_runtime_run_main(method, argc, argv, &out_exc)`; `out_exc` is
the content of the cell before the call, the second component of the result is
its content after the call. -/
def call_run_main (R : Runtime σ) (method : Handle) (argc : Int) (argv : List String)
    (out_exc : Handle) (w : World σ) : (Int × Handle) × World σ :=
  let r := R.mono_runtime_run_main method argc argv out_exc w.rt
  (r.1, { w with rt := r.2 })

/-- Line 44: `mono_print_unhandled_exception(exc);` -/
def call_print_unhandled_exception (R : Runtime σ) (exc : Handle)
    (w : World σ) : World σ :=
  { w with rt := R.mono_print_unhandled_exception exc w.rt }

/-- Expansion of a `printf` format against one string argument: the first `%s`
is replaced by the argument, the characters around it are copied. -/
def format : List Char → String → List Char
  | '%' :: 's' :: rest, arg => arg.data ++ rest
  | c :: rest, arg => c :: format rest arg
  | [], _ => []

/-- Line 35: `fprintf(stderr, fmt, arg);` with a format of one `%s`. -/
def fprintf_stderr (fmt : String) (arg : String) (w : World σ) : World σ :=
  { w with stderr := w.stderr ++ String.mk (format fmt.data arg) }

/-- The function `main` of main.c, lines 17-48.  `hooks` is the list the macro
`WASI_AFTER_RUNTIME_LOADED_CALLS` expands from (empty when the macro is not
defined); `out_exc` is the indeterminate content of the uninitialised local
`MonoObject* out_exc` (line 39) before `mono_runtime_run_main` is given its
address.  The local `out_res` (line 40) is never used. -/
def main (R : Runtime σ) (hooks : List (σ → σ)) (out_exc : Handle)
    (argc : Int) (argv : List String) (w : World σ) : Outcome × World σ :=
  let w := call_registerbundledassemblies R w
  let w := WASI_AFTER_RUNTIME_LOADED_CALLS hooks w
  let w := call_load_runtime R "" 0 w
  let (assembly_name, w) := call_getentrypointassemblyname R w
  let (assembly, w) := call_assembly_open R assembly_name NULL w
  let (entry_method, w) := call_get_entry_point R assembly w
  if entry_method = NULL then
    let w := fprintf_stderr "Could not find entrypoint in assembly %s\n" assembly_name w
    (Outcome.exited 1, w)
  else
    let ((ret, out_exc), w) := call_run_main R entry_method argc argv out_exc w
    if out_exc ≠ NULL then
      let w := call_print_unhandled_exception R out_exc w
      (Outcome.exited 1, w)
    else
      (Outcome.returned ret, w)

/-- A whole process run: `main` started in the initial world. -/
def run (R : Runtime σ) (hooks : List (σ → σ)) (out_exc : Handle)
    (argc : Int) (argv : List String) (s : σ) : Outcome × World σ :=
  main R hooks out_exc argc argv (World.start s)

/-- The runtime `R` observed from its own side: the state is the state of `R`
paired with a log, and every collaborator, when it is entered, answers as `R`
does on the state of `R` and appends to the log the call it received: the
arguments it was given and the answer it gave. -/
def recording (R : Runtime σ) : Runtime (σ × List Event) where
  dotnet_wasi_getentrypointassemblyname p :=
    let r := R.dotnet_wasi_getentrypointassemblyname p.1
    (r.1, (r.2, p.2 ++ [Event.getentrypointassemblyname r.1]))
  dotnet_wasi_getbundledfile name out_length p :=
    let r := R.dotnet_wasi_getbundledfile name out_length p.1
    (r.1, (r.2, p.2 ++ [Event.getbundledfile name out_length r.1]))
  dotnet_wasi_registerbundledassemblies p :=
    (R.dotnet_wasi_registerbundledassemblies p.1, p.2 ++ [Event.registerbundledassemblies])
  mono_wasm_load_runtime unused debug_level p :=
    (R.mono_wasm_load_runtime unused debug_level p.1,
     p.2 ++ [Event.load_runtime unused debug_level])
  mono_assembly_open filename status p :=
    let r := R.mono_assembly_open filename status p.1
    (r.1, (r.2, p.2 ++ [Event.assembly_open filename status r.1]))
  mono_wasi_assembly_get_entry_point assembly p :=
    let r := R.mono_wasi_assembly_get_entry_point assembly p.1
    (r.1, (r.2, p.2 ++ [Event.get_entry_point assembly r.1]))
  mono_runtime_run_main method argc argv out_exc p :=
    let r := R.mono_runtime_run_main method argc argv out_exc p.1
    (r.1, (r.2, p.2 ++ [Event.run_main method argc argv r.1.1 r.1.2]))
  mono_print_unhandled_exception exc p :=
    (R.mono_print_unhandled_exception exc p.1, p.2 ++ [Event.print_unhandled_exception exc])

/-- The hooks observed from their own side: the hook declared at position `i`
(counted from `i` for the head of the list), when it is entered, acts as
declared on the state of `R` and appends `after_runtime_loaded i` to the log. -/
def recording_hooks : List (σ → σ) → Nat → List (σ × List Event → σ × List Event)
  | [], _ => []
  | h :: hooks, i =>
    (fun p => (h p.1, p.2 ++ [Event.after_runtime_loaded i])) :: recording_hooks hooks (i + 1)

/-- The run of `main` against the recording runtime and the recording hooks,
started with an empty log. -/
def observed_run (R : Runtime σ) (hooks : List (σ → σ)) (out_exc : Handle)
    (argc : Int) (argv : List String) (s : σ) : Outcome × World (σ × List Event) :=
  run (recording R) (recording_hooks hooks 0) out_exc argc argv (s, [])

/-- The calls the collaborators received during a run of `main`, in order. -/
def calls (R : Runtime σ) (hooks : List (σ → σ)) (out_exc : Handle)
    (argc : Int) (argv : List String) (s : σ) : List Event :=
  (observed_run R hooks out_exc argc argv s).2.rt.2

/-- Whether an event is a call of `mono_print_unhandled_exception`. -/
def Event.is_print_unhandled_exception : Event → Bool
  | .print_unhandled_exception _ => true
  | _ => false

/-- The events of calling the hooks at positions `0 .. n-1` in declaration order. -/
def hook_events (n : Nat) : List Event :=
  (List.range n).map Event.after_runtime_loaded

/-- The calls every run makes up to and including entry-point resolution. -/
def bootstrap_events (n : Nat) (name : String) (assembly entry_method : Handle) :
    List Event :=
  Event.registerbundledassemblies :: hook_events n ++
    [Event.load_runtime "" 0, Event.getentrypointassemblyname name,
     Event.assembly_open name NULL assembly, Event.get_entry_point assembly entry_method]

/-- A concrete runtime for evaluating `main`: its state counts the calls it has
served, the entry assembly is called `name`, opening it yields `assembly`,
resolving the entry point of a non-null assembly yields `entry_method` (and
`NULL` for a null assembly), and running the entry method yields `ret` and
leaves `exc` in the exception cell. -/
def fixedRuntime (name : String) (assembly entry_method : Handle) (ret : Int)
    (exc : Handle) : Runtime Nat where
  dotnet_wasi_getentrypointassemblyname s := (name, s + 1)
  dotnet_wasi_getbundledfile _ _ s := (NULL, s + 1)
  dotnet_wasi_registerbundledassemblies s := s + 1
  mono_wasm_load_runtime _ _ s := s + 1
  mono_assembly_open _ _ s := (assembly, s + 1)
  mono_wasi_assembly_get_entry_point a s := (if a = NULL then NULL else entry_method, s + 1)
  mono_runtime_run_main _ _ _ _ s := ((ret, exc), s + 1)
  mono_print_unhandled_exception _ s := s + 1

/-- A second concrete runtime, which shows what `mono_runtime_run_main` is
given: the state is the last `argv` it received, the value it returns is the
`argc` it received, and it leaves no exception.  The entry assembly `app.dll`
opens as `7` and its entry method is `9`. -/
def echoRuntime : Runtime (List String) where
  dotnet_wasi_getentrypointassemblyname s := ("app.dll", s)
  dotnet_wasi_getbundledfile _ _ s := (NULL, s)
  dotnet_wasi_registerbundledassemblies s := s
  mono_wasm_load_runtime _ _ s := s
  mono_assembly_open _ _ s := (7, s)
  mono_wasi_assembly_get_entry_point _ s := (9, s)
  mono_runtime_run_main _ argc argv _ _ := ((argc, NULL), argv)
  mono_print_unhandled_exception _ s := s

/-! Lemmas on the pieces of `main`. -/

theorem hooks_eq (hooks : List (σ → σ)) (w : World σ) :
    WASI_AFTER_RUNTIME_LOADED_CALLS hooks w
      = { rt := hooks.foldl (fun st h => h st) w.rt, stderr := w.stderr } := by
  induction hooks generalizing w with
  | nil => simp [WASI_AFTER_RUNTIME_LOADED_CALLS]
  | cons h hooks ih => simp [WASI_AFTER_RUNTIME_LOADED_CALLS, ih]

theorem recording_hooks_foldl (hooks : List (σ → σ)) (i : Nat) (p : σ × List Event) :
    (recording_hooks hooks i).foldl (fun st h => h st) p
      = (hooks.foldl (fun st h => h st) p.1,
         p.2 ++ (List.range' i hooks.length).map Event.after_runtime_loaded) := by
  induction hooks generalizing i p with
  | nil => simp [recording_hooks]
  | cons h hooks ih => simp [recording_hooks, ih, List.range'_succ]

/-- What `main` computes, written out on the collaborators: the world it ends in
is the result of applying them one after the other, each to the state the
previous one left. -/
theorem run_eq (R : Runtime σ) (hooks : List (σ → σ)) (out_exc : Handle)
    (argc : Int) (argv : List String) (s : σ) :
    run R hooks out_exc argc argv s =
      let n := R.dotnet_wasi_getentrypointassemblyname
        (R.mono_wasm_load_runtime "" 0
          (hooks.foldl (fun st h => h st) (R.dotnet_wasi_registerbundledassemblies s)))
      let a := R.mono_assembly_open n.1 NULL n.2
      let m := R.mono_wasi_assembly_get_entry_point a.1 a.2
      let r := R.mono_runtime_run_main m.1 argc argv out_exc m.2
      if m.1 = NULL then
        (Outcome.exited 1,
         { rt := m.2, stderr := "Could not find entrypoint in assembly " ++ n.1 ++ "\n" })
      else if r.1.2 ≠ NULL then
        (Outcome.exited 1, { rt := R.mono_print_unhandled_exception r.1.2 r.2, stderr := "" })
      else
        (Outcome.returned r.1.1, { rt := r.2, stderr := "" }) := by
  simp only [run, main, call_registerbundledassemblies, hooks_eq, call_load_runtime,
    call_getentrypointassemblyname, call_assembly_open, call_get_entry_point,
    call_run_main, call_print_unhandled_exception, World.start, fprintf_stderr]
  split_ifs <;> simp
  apply String.ext
  simp [format]

/-- The recording changes nothing: the observed run ends as the run itself does,
with the same error stream and the same state of `R`. -/
theorem observed_run_faithful (R : Runtime σ) (hooks : List (σ → σ)) (out_exc : Handle)
    (argc : Int) (argv : List String) (s : σ) :
    (observed_run R hooks out_exc argc argv s).1 = (run R hooks out_exc argc argv s).1 ∧
    (observed_run R hooks out_exc argc argv s).2.stderr
      = (run R hooks out_exc argc argv s).2.stderr ∧
    (observed_run R hooks out_exc argc argv s).2.rt.1
      = (run R hooks out_exc argc argv s).2.rt := by
  simp only [observed_run]
  rw [run_eq, run_eq]
  simp only [recording, recording_hooks_foldl]
  split_ifs <;> simp

/-- The three ways a run can go, with the calls received and the error stream
of each; the name, the assembly and the entry method that the calls record are
the answers of the collaborators of `R`, each applied to the state the
previous one left. -/
theorem run_shape_applied (R : Runtime σ) (hooks : List (σ → σ)) (out_exc : Handle)
    (argc : Int) (argv : List String) (s : σ) :
    ∃ (name : String) (assembly entry_method : Handle),
      (∃ st : σ,
        (R.dotnet_wasi_getentrypointassemblyname st).1 = name ∧
        (R.mono_assembly_open name NULL (R.dotnet_wasi_getentrypointassemblyname st).2).1
          = assembly ∧
        (R.mono_wasi_assembly_get_entry_point assembly
          (R.mono_assembly_open name NULL
            (R.dotnet_wasi_getentrypointassemblyname st).2).2).1 = entry_method) ∧
      ((entry_method = NULL ∧
        (run R hooks out_exc argc argv s).1 = Outcome.exited 1 ∧
        calls R hooks out_exc argc argv s
          = bootstrap_events hooks.length name assembly entry_method ∧
        (run R hooks out_exc argc argv s).2.stderr
          = "Could not find entrypoint in assembly " ++ name ++ "\n") ∨
       (entry_method ≠ NULL ∧ ∃ (ret : Int) (exc : Handle),
        ((exc = NULL ∧
          (run R hooks out_exc argc argv s).1 = Outcome.returned ret ∧
          calls R hooks out_exc argc argv s
            = bootstrap_events hooks.length name assembly entry_method ++
                [Event.run_main entry_method argc argv ret exc]) ∨
         (exc ≠ NULL ∧
          (run R hooks out_exc argc argv s).1 = Outcome.exited 1 ∧
          calls R hooks out_exc argc argv s
            = bootstrap_events hooks.length name assembly entry_method ++
                [Event.run_main entry_method argc argv ret exc,
                 Event.print_unhandled_exception exc])) ∧
        (run R hooks out_exc argc argv s).2.stderr = "")) := by
  let n := R.dotnet_wasi_getentrypointassemblyname
    (R.mono_wasm_load_runtime "" 0
      (hooks.foldl (fun st h => h st) (R.dotnet_wasi_registerbundledassemblies s)))
  let a := R.mono_assembly_open n.1 NULL n.2
  let m := R.mono_wasi_assembly_get_entry_point a.1 a.2
  let r := R.mono_runtime_run_main m.1 argc argv out_exc m.2
  refine ⟨n.1, a.1, m.1, ⟨_, rfl, rfl, rfl⟩, ?_⟩
  simp only [calls, observed_run]
  rw [run_eq, run_eq]
  simp only [recording, recording_hooks_foldl, bootstrap_events, hook_events,
    List.range_eq_range']
  by_cases hm : m.1 = NULL
  · left
    simp only [n, a, m] at hm
    simp [hm, n, a, m]
  · right
    refine ⟨hm, r.1.1, r.1.2, ?_⟩
    simp only [n, a, m, r] at hm ⊢
    by_cases he : r.1.2 = NULL
    · simp only [n, a, m, r] at he
      simp [hm, he]
    · simp only [n, a, m, r] at he
      simp [hm, he]

/-- The three ways a run can go, with the calls received and the error stream
of each. -/
theorem run_shape (R : Runtime σ) (hooks : List (σ → σ)) (out_exc : Handle)
    (argc : Int) (argv : List String) (s : σ) :
    ∃ (name : String) (assembly entry_method : Handle),
      ((entry_method = NULL ∧
        (run R hooks out_exc argc argv s).1 = Outcome.exited 1 ∧
        calls R hooks out_exc argc argv s
          = bootstrap_events hooks.length name assembly entry_method ∧
        (run R hooks out_exc argc argv s).2.stderr
          = "Could not find entrypoint in assembly " ++ name ++ "\n") ∨
       (entry_method ≠ NULL ∧ ∃ (ret : Int) (exc : Handle),
        ((exc = NULL ∧
          (run R hooks out_exc argc argv s).1 = Outcome.returned ret ∧
          calls R hooks out_exc argc argv s
            = bootstrap_events hooks.length name assembly entry_method ++
                [Event.run_main entry_method argc argv ret exc]) ∨
         (exc ≠ NULL ∧
          (run R hooks out_exc argc argv s).1 = Outcome.exited 1 ∧
          calls R hooks out_exc argc argv s
            = bootstrap_events hooks.length name assembly entry_method ++
                [Event.run_main entry_method argc argv ret exc,
                 Event.print_unhandled_exception exc])) ∧
        (run R hooks out_exc argc argv s).2.stderr = "")) := by
  obtain ⟨name, a, m, -, h⟩ := run_shape_applied R hooks out_exc argc argv s
  exact ⟨name, a, m, h⟩

/-- Every run starts with the registration, the hooks in order and the runtime
start; none of these is called again afterwards. -/
theorem run_prefix (R : Runtime σ) (hooks : List (σ → σ)) (out_exc : Handle)
    (argc : Int) (argv : List String) (s : σ) :
    ∃ rest : List Event,
      (calls R hooks out_exc argc argv s)
        = Event.registerbundledassemblies :: hook_events hooks.length ++
            Event.load_runtime "" 0 :: rest ∧
      Event.registerbundledassemblies ∉ rest ∧
      (∀ i, Event.after_runtime_loaded i ∉ rest) ∧
      (∀ u d, Event.load_runtime u d ∉ rest) := by
  obtain ⟨name, a, m, h⟩ := run_shape R hooks out_exc argc argv s
  rcases h with ⟨_, _, ht, _⟩ | ⟨_, ret, exc, (⟨_, _, ht⟩ | ⟨_, _, ht⟩), _⟩
  · exact ⟨[Event.getentrypointassemblyname name, Event.assembly_open name NULL a,
        Event.get_entry_point a m], by rw [ht]; simp [bootstrap_events], by simp, by simp,
      by simp⟩
  · exact ⟨[Event.getentrypointassemblyname name, Event.assembly_open name NULL a,
        Event.get_entry_point a m, Event.run_main m argc argv ret exc],
      by rw [ht]; simp [bootstrap_events], by simp, by simp, by simp⟩
  · exact ⟨[Event.getentrypointassemblyname name, Event.assembly_open name NULL a,
        Event.get_entry_point a m, Event.run_main m argc argv ret exc,
        Event.print_unhandled_exception exc],
      by rw [ht]; simp [bootstrap_events], by simp, by simp, by simp⟩

/-- The run that returns, as a chain of applications of the collaborators of
`R`: whenever the calls received end with a `mono_runtime_run_main` that left
no exception, the recorded name, assembly, entry method and result are the
answers of the collaborators, each applied to the arguments recorded and to
the state the previous one left, starting from the state left by the runtime
start after the hooks after the registration; the run ends in the state that
`mono_runtime_run_main` left. -/
theorem run_chain (R : Runtime σ) (hooks : List (σ → σ)) (out_exc : Handle)
    (argc : Int) (argv : List String) (s : σ)
    (name : String) (assembly entry_method : Handle) (ret : Int)
    (h : calls R hooks out_exc argc argv s
      = bootstrap_events hooks.length name assembly entry_method ++
          [Event.run_main entry_method argc argv ret NULL]) :
    ∃ st4 st5 st6 : σ,
      R.dotnet_wasi_getentrypointassemblyname
        (R.mono_wasm_load_runtime "" 0
          (hooks.foldl (fun st h => h st) (R.dotnet_wasi_registerbundledassemblies s)))
        = (name, st4) ∧
      R.mono_assembly_open name NULL st4 = (assembly, st5) ∧
      R.mono_wasi_assembly_get_entry_point assembly st5 = (entry_method, st6) ∧
      R.mono_runtime_run_main entry_method argc argv out_exc st6
        = ((ret, NULL), (run R hooks out_exc argc argv s).2.rt) := by
  simp only [calls, observed_run] at h
  rw [run_eq] at h ⊢
  simp only [recording, recording_hooks_foldl, bootstrap_events, hook_events,
    List.range_eq_range'] at h
  rcases hn : R.dotnet_wasi_getentrypointassemblyname
    (R.mono_wasm_load_runtime "" 0
      (hooks.foldl (fun st h => h st) (R.dotnet_wasi_registerbundledassemblies s)))
    with ⟨nm, st4⟩
  simp only [hn] at h ⊢
  rcases ha : R.mono_assembly_open nm NULL st4 with ⟨asm, st5⟩
  simp only [ha] at h ⊢
  rcases hg : R.mono_wasi_assembly_get_entry_point asm st5 with ⟨meth, st6⟩
  simp only [hg] at h ⊢
  rcases hr : R.mono_runtime_run_main meth argc argv out_exc st6 with ⟨⟨rv, re⟩, st7⟩
  simp only [hr] at h ⊢
  split_ifs at h with hm he
  · simp at h
  · simp at h
  · simp at h
    obtain ⟨hname, ⟨-, hasm⟩, ⟨-, hmeth⟩, -, hret, hexc⟩ := h
    subst hname hasm hmeth hret hexc
    refine ⟨st4, st5, st6, rfl, ha, hg, ?_⟩
    rw [hr]
    simp [hm]

/-- A recorded call of `mono_runtime_run_main` is an application of that
collaborator of `R`: to the recorded method, to the `argc`, the `argv` and the
cell content `out_exc` of `main`, on some state `st`; the recorded answer is
its answer there, and the run ends in the state it left, after the exception
dump when the handle it left is not null. -/
theorem run_main_applied (R : Runtime σ) (hooks : List (σ → σ)) (out_exc : Handle)
    (argc : Int) (argv : List String) (s : σ)
    (method : Handle) (c : Int) (v : List String) (ret : Int) (exc : Handle)
    (h : Event.run_main method c v ret exc ∈ calls R hooks out_exc argc argv s) :
    c = argc ∧ v = argv ∧
    ∃ st : σ,
      (R.mono_runtime_run_main method argc argv out_exc st).1 = (ret, exc) ∧
      (run R hooks out_exc argc argv s).2.rt
        = if exc ≠ NULL then
            R.mono_print_unhandled_exception exc
              (R.mono_runtime_run_main method argc argv out_exc st).2
          else (R.mono_runtime_run_main method argc argv out_exc st).2 := by
  simp only [calls, observed_run] at h
  rw [run_eq] at h ⊢
  simp only [recording, recording_hooks_foldl] at h
  split_ifs at h with hm he
  · simp at h
  · simp at h
    obtain ⟨rfl, rfl, rfl, rfl, rfl⟩ := h
    exact ⟨rfl, rfl, _, rfl, by simp [hm, he]⟩
  · simp at h
    obtain ⟨rfl, rfl, rfl, rfl, rfl⟩ := h
    exact ⟨rfl, rfl, _, rfl, by simp [hm, he]⟩

/-! The claims. -/

/-- C1: in a run in which `mono_runtime_run_main` received a call and returned
`N` leaving the exception cell null (a call that `main` makes only on the
non-null method that entry-point resolution returned, which the conclusion
records), `main` ends by `return N`: the process exit code is `N`, whatever
integer `N` is, and `main` does not end through `exit`. -/
theorem main_returns_entry_result (R : Runtime σ) (hooks : List (σ → σ))
    (out_exc : Handle) (argc : Int) (argv : List String) (s : σ)
    (method : Handle) (c : Int) (v : List String) (N : Int)
    (hmain : Event.run_main method c v N NULL
      ∈ calls R hooks out_exc argc argv s) :
    (∃ assembly, Event.get_entry_point assembly method
        ∈ calls R hooks out_exc argc argv s ∧ method ≠ NULL) ∧
    (run R hooks out_exc argc argv s).1 = Outcome.returned N ∧
    (run R hooks out_exc argc argv s).1.exit_code = N ∧
    ∀ status, (run R hooks out_exc argc argv s).1 ≠ Outcome.exited status := by
  obtain ⟨name, a, m, h⟩ := run_shape R hooks out_exc argc argv s
  rcases h with ⟨_, _, ht, _⟩ | ⟨hm, ret, exc, (⟨_, ho, ht⟩ | ⟨hx, _, ht⟩), _⟩
  · rw [ht] at hmain
    simp [bootstrap_events, hook_events] at hmain
  · have hmain2 := hmain
    rw [ht] at hmain2
    simp [bootstrap_events, hook_events] at hmain2
    obtain ⟨hmeth, -, -, hN, -⟩ := hmain2
    subst hN hmeth
    refine ⟨⟨a, ?_, hm⟩, ?_⟩
    · rw [ht]; simp [bootstrap_events, hook_events]
    · simp [ho, Outcome.exit_code]
  · rw [ht] at hmain
    simp [bootstrap_events, hook_events] at hmain
    exact absurd hmain.2.2.2.2.symm hx

/-- C1 at a concrete run: the entry method returns `-3` and raises nothing. -/
theorem main_returns_entry_result_witness :
    Event.run_main 9 2 ["app", "x"] (-3) NULL
      ∈ calls (fixedRuntime "app.dll" 7 9 (-3) NULL) [(· + 10), (· * 2)] 5 2
          ["app", "x"] 0 ∧
    (∃ assembly, Event.get_entry_point assembly 9
        ∈ calls (fixedRuntime "app.dll" 7 9 (-3) NULL) [(· + 10), (· * 2)] 5 2
            ["app", "x"] 0 ∧ (9 : Handle) ≠ NULL) ∧
    (run (fixedRuntime "app.dll" 7 9 (-3) NULL) [(· + 10), (· * 2)] 5 2 ["app", "x"] 0).1
        = Outcome.returned (-3) ∧
    (run (fixedRuntime "app.dll" 7 9 (-3) NULL) [(· + 10), (· * 2)] 5 2 ["app", "x"] 0).1.exit_code
        = -3 ∧
    ∀ status,
      (run (fixedRuntime "app.dll" 7 9 (-3) NULL) [(· + 10), (· * 2)] 5 2 ["app", "x"] 0).1
        ≠ Outcome.exited status :=
  ⟨by decide,
   main_returns_entry_result (fixedRuntime "app.dll" 7 9 (-3) NULL) [(· + 10), (· * 2)] 5 2
    ["app", "x"] 0 9 2 ["app", "x"] (-3) (by decide)⟩

/-- C2: in a run in which entry-point resolution returned null, what `main`
wrote to standard error is exactly the line
`Could not find entrypoint in assembly <name>` with its newline, `<name>` being
the string that `dotnet_wasi_getentrypointassemblyname()` of `R` returned on
the one call it received, and the process ends through `exit(1)`. -/
theorem missing_entry_point_diagnostic (R : Runtime σ) (hooks : List (σ → σ))
    (out_exc : Handle) (argc : Int) (argv : List String) (s : σ) (assembly : Handle)
    (hentry : Event.get_entry_point assembly NULL ∈ calls R hooks out_exc argc argv s) :
    ∃ name : String,
      (∃ st : σ, (R.dotnet_wasi_getentrypointassemblyname st).1 = name) ∧
      Event.getentrypointassemblyname name ∈ calls R hooks out_exc argc argv s ∧
      (∀ other, Event.getentrypointassemblyname other
          ∈ calls R hooks out_exc argc argv s → other = name) ∧
      (run R hooks out_exc argc argv s).2.stderr
        = "Could not find entrypoint in assembly " ++ name ++ "\n" ∧
      (run R hooks out_exc argc argv s).1 = Outcome.exited 1 ∧
      (run R hooks out_exc argc argv s).1.exit_code = 1 := by
  obtain ⟨name, a, m, ⟨st, hname, -, -⟩, h⟩ := run_shape_applied R hooks out_exc argc argv s
  rcases h with ⟨_, ho, ht, he⟩ | ⟨hm, ret, exc, (⟨_, _, ht⟩ | ⟨_, _, ht⟩), _⟩
  · refine ⟨name, ⟨st, hname⟩, ?_, ?_, he, ho, by simp [ho, Outcome.exit_code]⟩
    · rw [ht]; simp [bootstrap_events, hook_events]
    · intro other hother
      rw [ht] at hother
      simpa [bootstrap_events, hook_events] using hother
  · rw [ht] at hentry
    simp [bootstrap_events, hook_events] at hentry
    exact absurd hentry.2.symm hm
  · rw [ht] at hentry
    simp [bootstrap_events, hook_events] at hentry
    exact absurd hentry.2.symm hm

/-- C2 at a concrete run: the accessor answers `app.dll`, the assembly opens but
has no entry point, and the line written names `app.dll`. -/
theorem missing_entry_point_diagnostic_witness :
    Event.get_entry_point 7 NULL
      ∈ calls (fixedRuntime "app.dll" 7 NULL 0 NULL) [] 5 1 ["app"] 0 ∧
    Event.getentrypointassemblyname "app.dll"
      ∈ calls (fixedRuntime "app.dll" 7 NULL 0 NULL) [] 5 1 ["app"] 0 ∧
    (run (fixedRuntime "app.dll" 7 NULL 0 NULL) [] 5 1 ["app"] 0).2.stderr
      = "Could not find entrypoint in assembly app.dll\n" ∧
    (run (fixedRuntime "app.dll" 7 NULL 0 NULL) [] 5 1 ["app"] 0).1 = Outcome.exited 1 := by
  obtain ⟨name, -, -, huniq, hstderr, ho, -⟩ :=
    missing_entry_point_diagnostic (fixedRuntime "app.dll" 7 NULL 0 NULL) [] 5 1 ["app"] 0 7
      (by decide)
  have hname : "app.dll" = name := huniq "app.dll" (by decide)
  subst hname
  exact ⟨by decide, by decide, hstderr.trans (by decide), ho⟩

/-- C3: in a run in which `mono_runtime_run_main` left a non-null handle `exc`
in the exception cell, `mono_print_unhandled_exception` receives exactly one
call, on `exc`, right after `mono_runtime_run_main`: the run ends in the state
that `mono_print_unhandled_exception exc` of `R` leaves when applied to the
state `mono_runtime_run_main` left; and the process ends through `exit(1)`
whatever `ret` was returned. -/
theorem unhandled_exception_exits_one (R : Runtime σ) (hooks : List (σ → σ))
    (out_exc : Handle) (argc : Int) (argv : List String) (s : σ)
    (method : Handle) (c : Int) (v : List String) (ret : Int) (exc : Handle)
    (hmain : Event.run_main method c v ret exc ∈ calls R hooks out_exc argc argv s)
    (hexc : exc ≠ NULL) :
    (∃ before : List Event,
      calls R hooks out_exc argc argv s
        = before ++ [Event.run_main method c v ret exc,
                     Event.print_unhandled_exception exc] ∧
      ∀ e, Event.print_unhandled_exception e ∉ before) ∧
    (∃ st : σ,
      (R.mono_runtime_run_main method argc argv out_exc st).1 = (ret, exc) ∧
      (run R hooks out_exc argc argv s).2.rt
        = R.mono_print_unhandled_exception exc
            (R.mono_runtime_run_main method argc argv out_exc st).2) ∧
    (run R hooks out_exc argc argv s).1 = Outcome.exited 1 ∧
    (run R hooks out_exc argc argv s).1.exit_code = 1 := by
  obtain ⟨-, -, st, hst, hrt⟩ :=
    run_main_applied R hooks out_exc argc argv s method c v ret exc hmain
  rw [if_pos hexc] at hrt
  obtain ⟨name, a, m, h⟩ := run_shape R hooks out_exc argc argv s
  rcases h with ⟨_, _, ht, _⟩ | ⟨_, r, x, (⟨hx, _, ht⟩ | ⟨_, ho, ht⟩), _⟩
  · rw [ht] at hmain
    simp [bootstrap_events, hook_events] at hmain
  · rw [ht] at hmain
    simp [bootstrap_events, hook_events] at hmain
    exact absurd (hmain.2.2.2.2.trans hx) hexc
  · rw [ht] at hmain
    simp [bootstrap_events, hook_events] at hmain
    obtain ⟨h1, h2, h3, h4, h5⟩ := hmain
    subst h1 h2 h3 h4 h5
    refine ⟨⟨bootstrap_events hooks.length name a method, ht, ?_⟩, ⟨st, hst, hrt⟩, ho,
      by simp [ho, Outcome.exit_code]⟩
    intro e
    simp [bootstrap_events, hook_events]

/-- C3 at a concrete run: the entry method returns `0` and leaves exception
`42`; the last two calls received are `mono_runtime_run_main` and the dump of
`42`, and the state `8` counts the dump as the eighth call served. -/
theorem unhandled_exception_exits_one_witness :
    Event.run_main 9 1 ["app"] 0 42
      ∈ calls (fixedRuntime "app.dll" 7 9 0 42) [(· + 1)] 5 1 ["app"] 0 ∧
    (42 : Handle) ≠ NULL ∧
    (calls (fixedRuntime "app.dll" 7 9 0 42) [(· + 1)] 5 1 ["app"] 0).drop 6
      = [Event.run_main 9 1 ["app"] 0 42, Event.print_unhandled_exception 42] ∧
    (run (fixedRuntime "app.dll" 7 9 0 42) [(· + 1)] 5 1 ["app"] 0).2.rt = 8 ∧
    ((∃ before : List Event,
      calls (fixedRuntime "app.dll" 7 9 0 42) [(· + 1)] 5 1 ["app"] 0
        = before ++ [Event.run_main 9 1 ["app"] 0 42,
                     Event.print_unhandled_exception 42] ∧
      ∀ e, Event.print_unhandled_exception e ∉ before) ∧
     (∃ st : Nat,
      ((fixedRuntime "app.dll" 7 9 0 42).mono_runtime_run_main 9 1 ["app"] 5 st).1
        = (0, 42) ∧
      (run (fixedRuntime "app.dll" 7 9 0 42) [(· + 1)] 5 1 ["app"] 0).2.rt
        = (fixedRuntime "app.dll" 7 9 0 42).mono_print_unhandled_exception 42
            ((fixedRuntime "app.dll" 7 9 0 42).mono_runtime_run_main 9 1 ["app"] 5 st).2) ∧
     (run (fixedRuntime "app.dll" 7 9 0 42) [(· + 1)] 5 1 ["app"] 0).1 = Outcome.exited 1 ∧
     (run (fixedRuntime "app.dll" 7 9 0 42) [(· + 1)] 5 1 ["app"] 0).1.exit_code = 1) :=
  ⟨by decide, by decide, by decide, by decide,
   unhandled_exception_exits_one (fixedRuntime "app.dll" 7 9 0 42) [(· + 1)] 5 1 ["app"] 0
    9 1 ["app"] 0 42 (by decide) (by decide)⟩

/-- C4: in every run, `dotnet_wasi_registerbundledassemblies` receives the first
call, it receives exactly one, and the calls split around the one call
`mono_wasm_load_runtime("", 0)` with the registration in the part before it;
the registration of `R` is applied to the state the process starts in: the run
is the run, from the state the registration leaves, of a runtime whose
registration does nothing. -/
theorem registration_once_before_load (R : Runtime σ) (hooks : List (σ → σ))
    (out_exc : Handle) (argc : Int) (argv : List String) (s : σ) :
    (calls R hooks out_exc argc argv s).head? = some Event.registerbundledassemblies ∧
    (calls R hooks out_exc argc argv s).count Event.registerbundledassemblies = 1 ∧
    (∃ before after : List Event,
      calls R hooks out_exc argc argv s
        = before ++ Event.load_runtime "" 0 :: after ∧
      Event.registerbundledassemblies ∈ before ∧
      (∀ u d, Event.load_runtime u d ∉ before) ∧
      (∀ u d, Event.load_runtime u d ∉ after)) ∧
    run R hooks out_exc argc argv s
      = run { R with dotnet_wasi_registerbundledassemblies := fun st => st }
          hooks out_exc argc argv (R.dotnet_wasi_registerbundledassemblies s) := by
  obtain ⟨rest, ht, hreg, -, hload⟩ := run_prefix R hooks out_exc argc argv s
  have hcount : List.count Event.registerbundledassemblies (hook_events hooks.length) = 0 :=
    List.count_eq_zero_of_not_mem (by simp [hook_events])
  have hrest : List.count Event.registerbundledassemblies rest = 0 :=
    List.count_eq_zero_of_not_mem hreg
  rw [ht]
  refine ⟨by simp, ?_, ?_, ?_⟩
  · simp [List.count_cons, hcount, hrest]
  · refine ⟨Event.registerbundledassemblies :: hook_events hooks.length, rest, rfl, ?_, ?_,
      hload⟩
    · simp
    · simp [hook_events]
  · rw [run_eq, run_eq]

/-- C4 at a concrete run with one hook: the calls received, in order, start with
the registration and hold the runtime start once, after it; the final state
`7` counts the seven calls served, the registration among them. -/
theorem registration_once_before_load_witness :
    calls (fixedRuntime "app.dll" 7 9 0 NULL) [(· + 1)] 5 1 ["app"] 0
      = [Event.registerbundledassemblies, Event.after_runtime_loaded 0,
         Event.load_runtime "" 0, Event.getentrypointassemblyname "app.dll",
         Event.assembly_open "app.dll" NULL 7, Event.get_entry_point 7 9,
         Event.run_main 9 1 ["app"] 0 NULL] ∧
    (run (fixedRuntime "app.dll" 7 9 0 NULL) [(· + 1)] 5 1 ["app"] 0).2.rt = 7 ∧
    (calls (fixedRuntime "app.dll" 7 9 0 NULL) [(· + 1)] 5 1 ["app"] 0).head?
      = some Event.registerbundledassemblies ∧
    (calls (fixedRuntime "app.dll" 7 9 0 NULL) [(· + 1)] 5 1 ["app"] 0).count
      Event.registerbundledassemblies = 1 ∧
    (∃ before after : List Event,
      calls (fixedRuntime "app.dll" 7 9 0 NULL) [(· + 1)] 5 1 ["app"] 0
        = before ++ Event.load_runtime "" 0 :: after ∧
      Event.registerbundledassemblies ∈ before ∧
      (∀ u d, Event.load_runtime u d ∉ before) ∧
      (∀ u d, Event.load_runtime u d ∉ after)) ∧
    run (fixedRuntime "app.dll" 7 9 0 NULL) [(· + 1)] 5 1 ["app"] 0
      = run { fixedRuntime "app.dll" 7 9 0 NULL with
              dotnet_wasi_registerbundledassemblies := fun st => st }
          [(· + 1)] 5 1 ["app"]
          ((fixedRuntime "app.dll" 7 9 0 NULL).dotnet_wasi_registerbundledassemblies 0) :=
  ⟨by decide, by decide,
   registration_once_before_load (fixedRuntime "app.dll" 7 9 0 NULL) [(· + 1)] 5 1 ["app"] 0⟩

/-- C5: every call that `mono_runtime_run_main` receives in a run carries the
`argc` and the `argv` that `main` received, unchanged: the recorded answer is
the answer of `mono_runtime_run_main` of `R` applied to the entry method, to
that `argc` and that `argv`, and to the exception cell of `main`. -/
theorem arguments_forwarded (R : Runtime σ) (hooks : List (σ → σ))
    (out_exc : Handle) (argc : Int) (argv : List String) (s : σ)
    (method : Handle) (c : Int) (v : List String) (ret : Int) (exc : Handle)
    (hmain : Event.run_main method c v ret exc ∈ calls R hooks out_exc argc argv s) :
    c = argc ∧ v = argv ∧
    ∃ st : σ,
      (R.mono_runtime_run_main method argc argv out_exc st).1 = (ret, exc) ∧
      (run R hooks out_exc argc argv s).2.rt
        = if exc ≠ NULL then
            R.mono_print_unhandled_exception exc
              (R.mono_runtime_run_main method argc argv out_exc st).2
          else (R.mono_runtime_run_main method argc argv out_exc st).2 := by
  obtain ⟨hc, hv, st, hst, hrt⟩ :=
    run_main_applied R hooks out_exc argc argv s method c v ret exc hmain
  exact ⟨hc, hv, st, hst, hrt⟩

/-- C5 at two concrete runs of the echoing runtime, whose entry method returns
the `argc` it is given and leaves the `argv` it is given as the state: with
three arguments the process returns `3` and the state is the three arguments in
order; with `argc = 0` and an empty `argv` it returns `0` and the state is
empty. -/
theorem arguments_forwarded_witness :
    (Event.run_main 9 3 ["app", "-v", "in.txt"] 3 NULL
        ∈ calls echoRuntime [] 5 3 ["app", "-v", "in.txt"] ["?"] ∧
      (run echoRuntime [] 5 3 ["app", "-v", "in.txt"] ["?"]).1 = Outcome.returned 3 ∧
      (run echoRuntime [] 5 3 ["app", "-v", "in.txt"] ["?"]).2.rt
        = ["app", "-v", "in.txt"]) ∧
    (Event.run_main 9 0 [] 0 NULL ∈ calls echoRuntime [] 5 0 [] ["?"] ∧
      (run echoRuntime [] 5 0 [] ["?"]).1 = Outcome.returned 0 ∧
      (run echoRuntime [] 5 0 [] ["?"]).2.rt = []) ∧
    ((3 : Int) = 3 ∧ ["app", "-v", "in.txt"] = ["app", "-v", "in.txt"] ∧
      ∃ st : List String,
        (echoRuntime.mono_runtime_run_main 9 3 ["app", "-v", "in.txt"] 5 st).1 = (3, NULL) ∧
        (run echoRuntime [] 5 3 ["app", "-v", "in.txt"] ["?"]).2.rt
          = if NULL ≠ NULL then
              echoRuntime.mono_print_unhandled_exception NULL
                (echoRuntime.mono_runtime_run_main 9 3 ["app", "-v", "in.txt"] 5 st).2
            else (echoRuntime.mono_runtime_run_main 9 3 ["app", "-v", "in.txt"] 5 st).2) ∧
    ((0 : Int) = 0 ∧ ([] : List String) = [] ∧
      ∃ st : List String,
        (echoRuntime.mono_runtime_run_main 9 0 [] 5 st).1 = (0, NULL) ∧
        (run echoRuntime [] 5 0 [] ["?"]).2.rt
          = if NULL ≠ NULL then
              echoRuntime.mono_print_unhandled_exception NULL
                (echoRuntime.mono_runtime_run_main 9 0 [] 5 st).2
            else (echoRuntime.mono_runtime_run_main 9 0 [] 5 st).2) :=
  ⟨⟨by decide, by decide, by decide⟩, ⟨by decide, by decide, by decide⟩,
   arguments_forwarded echoRuntime [] 5 3 ["app", "-v", "in.txt"] ["?"]
      9 3 ["app", "-v", "in.txt"] 3 NULL (by decide),
   arguments_forwarded echoRuntime [] 5 0 [] ["?"] 9 0 [] 0 NULL (by decide)⟩

/-- C6: in every run the calls received are the registration, then one call of
each hook of the list in list order, then `mono_wasm_load_runtime("", 0)`, and
no hook is called after that, so that the hook at each position is called
exactly once; the run is the one in which the hooks are applied to the runtime
state one after the other in list order right after the registration; and
with the empty list the calls are the registration directly followed by the
runtime start, with no hook call at all. -/
theorem hooks_once_in_order (R : Runtime σ) (hooks : List (σ → σ))
    (out_exc : Handle) (argc : Int) (argv : List String) (s : σ) :
    (∃ rest : List Event,
      calls R hooks out_exc argc argv s
        = Event.registerbundledassemblies ::
            (List.range hooks.length).map Event.after_runtime_loaded ++
            Event.load_runtime "" 0 :: rest ∧
      Event.registerbundledassemblies ∉ rest ∧
      (∀ i, Event.after_runtime_loaded i ∉ rest) ∧
      (∀ u d, Event.load_runtime u d ∉ rest)) ∧
    (∀ i, i < hooks.length →
      (calls R hooks out_exc argc argv s).count (Event.after_runtime_loaded i) = 1) ∧
    (∀ i, hooks.length ≤ i →
      Event.after_runtime_loaded i ∉ calls R hooks out_exc argc argv s) ∧
    run R hooks out_exc argc argv s
      = run { R with
              dotnet_wasi_registerbundledassemblies := fun st =>
                hooks.foldl (fun st h => h st) (R.dotnet_wasi_registerbundledassemblies st) }
          [] out_exc argc argv s ∧
    (∃ rest : List Event,
      calls R [] out_exc argc argv s
        = Event.registerbundledassemblies :: Event.load_runtime "" 0 :: rest ∧
      ∀ i, Event.after_runtime_loaded i ∉ calls R [] out_exc argc argv s) := by
  obtain ⟨rest, ht, hreg, hhook, hload⟩ := run_prefix R hooks out_exc argc argv s
  refine ⟨⟨rest, ht, hreg, hhook, hload⟩, ?_, ?_, ?_, ?_⟩
  · intro i hi
    have hinj : Function.Injective Event.after_runtime_loaded := by
      intro x y hxy
      injection hxy
    have hone : List.count (Event.after_runtime_loaded i) (hook_events hooks.length) = 1 := by
      unfold hook_events
      rw [List.count_map_of_injective _ _ hinj]
      exact List.count_eq_one_of_mem (List.nodup_range _) (List.mem_range.2 hi)
    have hzero : List.count (Event.after_runtime_loaded i) rest = 0 :=
      List.count_eq_zero_of_not_mem (hhook i)
    rw [ht]
    simp [List.count_cons, hone, hzero]
  · intro i hi
    rw [ht]
    have hnot : Event.after_runtime_loaded i ∉ hook_events hooks.length := by
      simp only [hook_events, List.mem_map, List.mem_range, not_exists, not_and]
      intro j hj hji
      injection hji with hji
      omega
    simp [hnot, hhook i]
  · rw [run_eq, run_eq]
    simp
  · obtain ⟨rest0, ht0, -, hhook0, -⟩ := run_prefix R [] out_exc argc argv s
    refine ⟨rest0, by simpa [hook_events] using ht0, ?_⟩
    intro i
    rw [ht0]
    simpa [hook_events] using hhook0 i

/-- C6 at a concrete run with two hooks that do not commute: the calls received
start with the registration, the first hook, the second hook and the runtime
start, each hook once, and the final state `27` is the one reached by adding
`10` before doubling (`((0 + 1) + 10) * 2 + 5`), not the other way round. -/
theorem hooks_once_in_order_witness :
    (calls (fixedRuntime "app.dll" 7 9 0 NULL) [(· + 10), (· * 2)] 5 1 ["app"] 0).take 4
      = [Event.registerbundledassemblies, Event.after_runtime_loaded 0,
         Event.after_runtime_loaded 1, Event.load_runtime "" 0] ∧
    (run (fixedRuntime "app.dll" 7 9 0 NULL) [(· + 10), (· * 2)] 5 1 ["app"] 0).2.rt = 27 ∧
    (calls (fixedRuntime "app.dll" 7 9 0 NULL) [(· + 10), (· * 2)] 5 1 ["app"] 0).count
        (Event.after_runtime_loaded 1) = 1 ∧
    Event.after_runtime_loaded 2
      ∉ calls (fixedRuntime "app.dll" 7 9 0 NULL) [(· + 10), (· * 2)] 5 1 ["app"] 0 :=
  ⟨by decide, by decide,
   (hooks_once_in_order (fixedRuntime "app.dll" 7 9 0 NULL) [(· + 10), (· * 2)] 5 1
      ["app"] 0).2.1 1 (by decide),
   (hooks_once_in_order (fixedRuntime "app.dll" 7 9 0 NULL) [(· + 10), (· * 2)] 5 1
      ["app"] 0).2.2.1 2 (by decide)⟩

/-- C7, the claim as stated fails: in the run below `mono_assembly_open` returns
`NULL` and `main` still calls `mono_wasi_assembly_get_entry_point`, so it is not
true that entry-point resolution is invoked only after a successful open (and
`mono_runtime_run_main` only on a non-null method). -/
theorem resolution_not_guarded_by_open :
    ¬ ((∀ assembly entry_method, Event.get_entry_point assembly entry_method
          ∈ calls (fixedRuntime "app.dll" NULL 9 0 NULL) [] 5 1 ["app"] 0 →
        ∀ name status opened, Event.assembly_open name status opened
          ∈ calls (fixedRuntime "app.dll" NULL 9 0 NULL) [] 5 1 ["app"] 0 →
        opened ≠ NULL) ∧
       (∀ method c v ret exc, Event.run_main method c v ret exc
          ∈ calls (fixedRuntime "app.dll" NULL 9 0 NULL) [] 5 1 ["app"] 0 →
        method ≠ NULL)) := by
  intro h
  exact h.1 NULL NULL (by decide) "app.dll" NULL NULL (by decide) rfl

/-- C7 as amended: `mono_runtime_run_main` is invoked only on a non-null method
that entry-point resolution returned; entry-point resolution itself is invoked
in every run, right after `mono_assembly_open` and on the handle it returned,
whether that handle is null or not.  Both are meant of the collaborators of
`R`: the recorded answers are the answers of `mono_runtime_run_main`, of
`mono_assembly_open` and of `mono_wasi_assembly_get_entry_point` of `R`, the
last one applied to the handle and the state that `mono_assembly_open` left. -/
theorem run_main_guarded_resolution_not (R : Runtime σ) (hooks : List (σ → σ))
    (out_exc : Handle) (argc : Int) (argv : List String) (s : σ) :
    (∀ method c v ret exc, Event.run_main method c v ret exc
        ∈ calls R hooks out_exc argc argv s →
      method ≠ NULL ∧
      (∃ assembly, Event.get_entry_point assembly method
        ∈ calls R hooks out_exc argc argv s ∧
        ∃ st : σ, (R.mono_wasi_assembly_get_entry_point assembly st).1 = method) ∧
      ∃ st : σ, (R.mono_runtime_run_main method argc argv out_exc st).1 = (ret, exc)) ∧
    (∃ (before after : List Event) (name : String) (assembly entry_method : Handle),
      calls R hooks out_exc argc argv s
        = before ++ [Event.assembly_open name NULL assembly,
                     Event.get_entry_point assembly entry_method] ++ after ∧
      ∃ st : σ,
        (R.mono_assembly_open name NULL st).1 = assembly ∧
        (R.mono_wasi_assembly_get_entry_point assembly
          (R.mono_assembly_open name NULL st).2).1 = entry_method) := by
  obtain ⟨name, a, m, ⟨st, -, hopen, hgep⟩, h⟩ :=
    run_shape_applied R hooks out_exc argc argv s
  have hsplit : bootstrap_events hooks.length name a m
      = (Event.registerbundledassemblies :: hook_events hooks.length ++
          [Event.load_runtime "" 0, Event.getentrypointassemblyname name]) ++
        [Event.assembly_open name NULL a, Event.get_entry_point a m] ++ [] := by
    simp [bootstrap_events]
  have hguard : ∀ extra : List Event, m ≠ NULL →
      calls R hooks out_exc argc argv s = bootstrap_events hooks.length name a m ++ extra →
      (∀ method c v ret exc, Event.run_main method c v ret exc ∈ extra → method = m) →
      ∀ method c v ret exc, Event.run_main method c v ret exc
          ∈ calls R hooks out_exc argc argv s →
        method ≠ NULL ∧
        (∃ assembly, Event.get_entry_point assembly method
          ∈ calls R hooks out_exc argc argv s ∧
          ∃ st : σ, (R.mono_wasi_assembly_get_entry_point assembly st).1 = method) ∧
        ∃ st : σ, (R.mono_runtime_run_main method argc argv out_exc st).1 = (ret, exc) := by
    intro extra hm ht hextra method c v ret exc hmain
    obtain ⟨-, -, st2, hst2, -⟩ :=
      run_main_applied R hooks out_exc argc argv s method c v ret exc hmain
    have hmeth : method = m := by
      rw [ht] at hmain
      rcases List.mem_append.1 hmain with hin | hin
      · simp [bootstrap_events, hook_events] at hin
      · exact hextra _ _ _ _ _ hin
    subst hmeth
    refine ⟨hm, ⟨a, ?_, _, hgep⟩, st2, hst2⟩
    rw [ht]
    simp [bootstrap_events, hook_events]
  rcases h with ⟨_, _, ht, _⟩ | ⟨hm, ret, exc, (⟨_, _, ht⟩ | ⟨_, _, ht⟩), _⟩
  · refine ⟨?_, (Event.registerbundledassemblies :: hook_events hooks.length ++
        [Event.load_runtime "" 0, Event.getentrypointassemblyname name]),
      [], name, a, m, ht.trans hsplit, _, hopen, hgep⟩
    intro method c v r e hmain
    rw [ht] at hmain
    simp [bootstrap_events, hook_events] at hmain
  · refine ⟨hguard _ hm ht ?_, (Event.registerbundledassemblies :: hook_events hooks.length ++
        [Event.load_runtime "" 0, Event.getentrypointassemblyname name]),
      [Event.run_main m argc argv ret exc], name, a, m, ?_, _, hopen, hgep⟩
    · intro method c v r e hin
      simp at hin
      exact hin.1
    · rw [ht, hsplit]; simp
  · refine ⟨hguard _ hm ht ?_, (Event.registerbundledassemblies :: hook_events hooks.length ++
        [Event.load_runtime "" 0, Event.getentrypointassemblyname name]),
      [Event.run_main m argc argv ret exc, Event.print_unhandled_exception exc],
      name, a, m, ?_, _, hopen, hgep⟩
    · intro method c v r e hin
      simp at hin
      exact hin.1
    · rw [ht, hsplit]; simp

/-- C7 as amended, at two concrete runs: one in which the entry method `9` is
run, and one in which `mono_assembly_open` answers `NULL` and the calls
received are nevertheless followed by `mono_wasi_assembly_get_entry_point` on
that `NULL`, with no call of `mono_runtime_run_main`. -/
theorem run_main_guarded_resolution_not_witness :
    (Event.run_main 9 1 ["app"] 0 NULL
        ∈ calls (fixedRuntime "app.dll" 7 9 0 NULL) [] 5 1 ["app"] 0 ∧
     ((9 : Handle) ≠ NULL ∧
      (∃ assembly, Event.get_entry_point assembly 9
        ∈ calls (fixedRuntime "app.dll" 7 9 0 NULL) [] 5 1 ["app"] 0 ∧
        ∃ st : Nat,
          ((fixedRuntime "app.dll" 7 9 0 NULL).mono_wasi_assembly_get_entry_point
            assembly st).1 = 9) ∧
      ∃ st : Nat,
        ((fixedRuntime "app.dll" 7 9 0 NULL).mono_runtime_run_main 9 1 ["app"] 5 st).1
          = (0, NULL))) ∧
    (calls (fixedRuntime "app.dll" NULL 9 0 NULL) [] 5 1 ["app"] 0
        = [Event.registerbundledassemblies, Event.load_runtime "" 0,
           Event.getentrypointassemblyname "app.dll",
           Event.assembly_open "app.dll" NULL NULL, Event.get_entry_point NULL NULL] ∧
     ∃ (before after : List Event) (name : String) (assembly entry_method : Handle),
      calls (fixedRuntime "app.dll" NULL 9 0 NULL) [] 5 1 ["app"] 0
        = before ++ [Event.assembly_open name NULL assembly,
                     Event.get_entry_point assembly entry_method] ++ after ∧
      ∃ st : Nat,
        ((fixedRuntime "app.dll" NULL 9 0 NULL).mono_assembly_open name NULL st).1
          = assembly ∧
        ((fixedRuntime "app.dll" NULL 9 0 NULL).mono_wasi_assembly_get_entry_point assembly
          ((fixedRuntime "app.dll" NULL 9 0 NULL).mono_assembly_open name NULL st).2).1
          = entry_method) :=
  ⟨⟨by decide,
    (run_main_guarded_resolution_not (fixedRuntime "app.dll" 7 9 0 NULL) [] 5 1
      ["app"] 0).1 9 1 ["app"] 0 NULL (by decide)⟩,
   by decide,
   (run_main_guarded_resolution_not (fixedRuntime "app.dll" NULL 9 0 NULL) [] 5 1
      ["app"] 0).2⟩

/-- C8: in a run in which `mono_assembly_open` returned `NULL`, `main` goes on:
`mono_wasi_assembly_get_entry_point` receives a call on `NULL`, whose recorded
answer is the answer of that collaborator of `R` applied to `NULL`; and if
that call returned `NULL`, the run is the missing-entry-point one: the
diagnostic line naming the assembly (the name given to `mono_assembly_open`,
which is the one the accessor returned) is what `main` wrote to standard error,
the process ends through `exit(1)`, and `mono_runtime_run_main` receives no
call. -/
theorem null_assembly_falls_through (R : Runtime σ) (hooks : List (σ → σ))
    (out_exc : Handle) (argc : Int) (argv : List String) (s : σ)
    (name : String) (status : Handle)
    (hopen : Event.assembly_open name status NULL ∈ calls R hooks out_exc argc argv s) :
    (∃ entry_method,
      Event.get_entry_point NULL entry_method ∈ calls R hooks out_exc argc argv s ∧
      ∃ st : σ, (R.mono_wasi_assembly_get_entry_point NULL st).1 = entry_method) ∧
    ((∀ entry_method, Event.get_entry_point NULL entry_method
        ∈ calls R hooks out_exc argc argv s → entry_method = NULL) →
      Event.getentrypointassemblyname name ∈ calls R hooks out_exc argc argv s ∧
      (run R hooks out_exc argc argv s).2.stderr
        = "Could not find entrypoint in assembly " ++ name ++ "\n" ∧
      (run R hooks out_exc argc argv s).1 = Outcome.exited 1 ∧
      (run R hooks out_exc argc argv s).1.exit_code = 1 ∧
      ∀ method c v ret exc, Event.run_main method c v ret exc
        ∉ calls R hooks out_exc argc argv s) := by
  obtain ⟨nm, a, m, ⟨st, -, -, hgep⟩, h⟩ := run_shape_applied R hooks out_exc argc argv s
  have hmem : ∀ extra : List Event, (∀ f st r, Event.assembly_open f st r ∉ extra) →
      Event.assembly_open name status NULL ∈ bootstrap_events hooks.length nm a m ++ extra →
      name = nm ∧ a = NULL := by
    intro extra hextra hin
    rcases List.mem_append.1 hin with hin | hin
    · simp [bootstrap_events, hook_events] at hin
      exact ⟨hin.1, hin.2.2.symm⟩
    · exact absurd hin (hextra _ _ _)
  have hentry : Event.get_entry_point a m ∈ bootstrap_events hooks.length nm a m := by
    simp [bootstrap_events, hook_events]
  have hname : Event.getentrypointassemblyname nm ∈ bootstrap_events hooks.length nm a m := by
    simp [bootstrap_events, hook_events]
  rcases h with ⟨hm, ho, ht, he⟩ | ⟨hm, ret, exc, (⟨_, _, ht⟩ | ⟨_, _, ht⟩), _⟩
  · rw [ht] at hopen
    obtain ⟨hn, ha⟩ := hmem [] (by simp) (by simpa using hopen)
    subst hn ha
    refine ⟨⟨m, by rw [ht]; exact hentry, _, hgep⟩, fun _ => ⟨by rw [ht]; exact hname, he, ho,
      by simp [ho, Outcome.exit_code], ?_⟩⟩
    intro method c v r e
    rw [ht]
    simp [bootstrap_events, hook_events]
  · rw [ht] at hopen
    obtain ⟨hn, ha⟩ := hmem _ (by simp) hopen
    subst hn ha
    refine ⟨⟨m, by rw [ht]; exact List.mem_append_left _ hentry, _, hgep⟩, fun hnull => ?_⟩
    exact absurd (hnull m (by rw [ht]; exact List.mem_append_left _ hentry)) hm
  · rw [ht] at hopen
    obtain ⟨hn, ha⟩ := hmem _ (by simp) hopen
    subst hn ha
    refine ⟨⟨m, by rw [ht]; exact List.mem_append_left _ hentry, _, hgep⟩, fun hnull => ?_⟩
    exact absurd (hnull m (by rw [ht]; exact List.mem_append_left _ hentry)) hm

/-- C8 at a concrete run: the assembly cannot be opened; the calls received end
with the failed open and the resolution on `NULL`, and the line written names
`app.dll`. -/
theorem null_assembly_falls_through_witness :
    Event.assembly_open "app.dll" NULL NULL
      ∈ calls (fixedRuntime "app.dll" NULL 9 0 NULL) [(· + 1)] 5 1 ["app"] 0 ∧
    calls (fixedRuntime "app.dll" NULL 9 0 NULL) [(· + 1)] 5 1 ["app"] 0
      = [Event.registerbundledassemblies, Event.after_runtime_loaded 0,
         Event.load_runtime "" 0, Event.getentrypointassemblyname "app.dll",
         Event.assembly_open "app.dll" NULL NULL, Event.get_entry_point NULL NULL] ∧
    (∃ entry_method,
      Event.get_entry_point NULL entry_method
        ∈ calls (fixedRuntime "app.dll" NULL 9 0 NULL) [(· + 1)] 5 1 ["app"] 0 ∧
      ∃ st : Nat,
        ((fixedRuntime "app.dll" NULL 9 0 NULL).mono_wasi_assembly_get_entry_point
          NULL st).1 = entry_method) ∧
    Event.getentrypointassemblyname "app.dll"
      ∈ calls (fixedRuntime "app.dll" NULL 9 0 NULL) [(· + 1)] 5 1 ["app"] 0 ∧
    (run (fixedRuntime "app.dll" NULL 9 0 NULL) [(· + 1)] 5 1 ["app"] 0).2.stderr
      = "Could not find entrypoint in assembly " ++ "app.dll" ++ "\n" ∧
    (run (fixedRuntime "app.dll" NULL 9 0 NULL) [(· + 1)] 5 1 ["app"] 0).1 = Outcome.exited 1 ∧
    (run (fixedRuntime "app.dll" NULL 9 0 NULL) [(· + 1)] 5 1 ["app"] 0).1.exit_code = 1 ∧
    ∀ method c v ret exc, Event.run_main method c v ret exc
      ∉ calls (fixedRuntime "app.dll" NULL 9 0 NULL) [(· + 1)] 5 1 ["app"] 0 :=
  ⟨by decide, by decide,
   (null_assembly_falls_through (fixedRuntime "app.dll" NULL 9 0 NULL) [(· + 1)] 5 1 ["app"] 0
    "app.dll" NULL (by decide)).1,
   (null_assembly_falls_through (fixedRuntime "app.dll" NULL 9 0 NULL) [(· + 1)] 5 1 ["app"] 0
    "app.dll" NULL (by decide)).2
    (by
      intro entry_method h
      have ht : calls (fixedRuntime "app.dll" NULL 9 0 NULL) [(· + 1)] 5 1 ["app"] 0
          = [Event.registerbundledassemblies, Event.after_runtime_loaded 0,
             Event.load_runtime "" 0, Event.getentrypointassemblyname "app.dll",
             Event.assembly_open "app.dll" NULL NULL, Event.get_entry_point NULL NULL] := by
        decide
      rw [ht] at h
      simpa using h)⟩

/-- C9: in a run in which entry-point resolution returned a non-null method
and `mono_runtime_run_main` left no exception, the calls received are exactly:
the registration; the hooks in order; `mono_wasm_load_runtime("", 0)`; the name
accessor; `mono_assembly_open(name, NULL)` on the name it returned;
`mono_wasi_assembly_get_entry_point` on the handle just opened;
`mono_runtime_run_main` on the method just resolved, with `argc` and `argv`.
These are applications of the collaborators of `R`, each to the state the
previous one left, and the run ends in the state `mono_runtime_run_main` left.
`main` wrote nothing to standard error, neither `dotnet_wasi_getbundledfile` nor
`mono_print_unhandled_exception` receives a call, and `main` returns the
result. -/
theorem normal_run_trace (R : Runtime σ) (hooks : List (σ → σ))
    (out_exc : Handle) (argc : Int) (argv : List String) (s : σ)
    (assembly entry_method : Handle)
    (hentry : Event.get_entry_point assembly entry_method
      ∈ calls R hooks out_exc argc argv s)
    (hfound : entry_method ≠ NULL)
    (hnoexc : ∀ method c v ret exc, Event.run_main method c v ret exc
      ∈ calls R hooks out_exc argc argv s → exc = NULL) :
    ∃ (name : String) (ret : Int),
      calls R hooks out_exc argc argv s
        = Event.registerbundledassemblies ::
            (List.range hooks.length).map Event.after_runtime_loaded ++
            [Event.load_runtime "" 0,
             Event.getentrypointassemblyname name,
             Event.assembly_open name NULL assembly,
             Event.get_entry_point assembly entry_method,
             Event.run_main entry_method argc argv ret NULL] ∧
      (∃ st4 st5 st6 : σ,
        R.dotnet_wasi_getentrypointassemblyname
          (R.mono_wasm_load_runtime "" 0
            (hooks.foldl (fun st h => h st) (R.dotnet_wasi_registerbundledassemblies s)))
          = (name, st4) ∧
        R.mono_assembly_open name NULL st4 = (assembly, st5) ∧
        R.mono_wasi_assembly_get_entry_point assembly st5 = (entry_method, st6) ∧
        R.mono_runtime_run_main entry_method argc argv out_exc st6
          = ((ret, NULL), (run R hooks out_exc argc argv s).2.rt)) ∧
      (run R hooks out_exc argc argv s).2.stderr = "" ∧
      (∀ file out_length result, Event.getbundledfile file out_length result
        ∉ calls R hooks out_exc argc argv s) ∧
      (∀ exc, Event.print_unhandled_exception exc
        ∉ calls R hooks out_exc argc argv s) ∧
      (run R hooks out_exc argc argv s).1 = Outcome.returned ret := by
  obtain ⟨name, a, m, h⟩ := run_shape R hooks out_exc argc argv s
  rcases h with ⟨hm, _, ht, _⟩ | ⟨hm, ret, exc, (⟨hx, ho, ht⟩ | ⟨hx, _, ht⟩), he⟩
  · rw [ht] at hentry
    simp [bootstrap_events, hook_events] at hentry
    exact absurd (hentry.2.trans hm) hfound
  · have hentry2 := hentry
    rw [ht] at hentry2
    simp [bootstrap_events, hook_events] at hentry2
    obtain ⟨ha, hm2⟩ := hentry2
    subst ha hm2 hx
    refine ⟨name, ret, ?_, run_chain R hooks out_exc argc argv s name assembly entry_method
      ret ht, he, ?_, ?_, ho⟩
    · rw [ht]; simp [bootstrap_events, hook_events]
    · intro file out_length result
      rw [ht]; simp [bootstrap_events, hook_events]
    · intro e
      rw [ht]; simp [bootstrap_events, hook_events]
  · exact absurd (hnoexc m argc argv ret exc (by rw [ht]; simp)) hx

/-- C9 at a concrete run with two hooks and two arguments: the eight calls
received, in order, and the state `27`, which counts them with the two hooks
applied in order (`((0 + 1) + 10) * 2 + 5`). -/
theorem normal_run_trace_witness :
    Event.get_entry_point 7 9
      ∈ calls (fixedRuntime "app.dll" 7 9 4 NULL) [(· + 10), (· * 2)] 5 2
          ["app", "x"] 0 ∧
    (9 : Handle) ≠ NULL ∧
    calls (fixedRuntime "app.dll" 7 9 4 NULL) [(· + 10), (· * 2)] 5 2 ["app", "x"] 0
      = [Event.registerbundledassemblies, Event.after_runtime_loaded 0,
         Event.after_runtime_loaded 1, Event.load_runtime "" 0,
         Event.getentrypointassemblyname "app.dll",
         Event.assembly_open "app.dll" NULL 7, Event.get_entry_point 7 9,
         Event.run_main 9 2 ["app", "x"] 4 NULL] ∧
    (run (fixedRuntime "app.dll" 7 9 4 NULL) [(· + 10), (· * 2)] 5 2 ["app", "x"] 0).2.rt
      = 27 ∧
    ∃ (name : String) (ret : Int),
      calls (fixedRuntime "app.dll" 7 9 4 NULL) [(· + 10), (· * 2)] 5 2 ["app", "x"] 0
        = Event.registerbundledassemblies ::
            (List.range [(· + 10), (· * 2)].length).map Event.after_runtime_loaded ++
            [Event.load_runtime "" 0,
             Event.getentrypointassemblyname name,
             Event.assembly_open name NULL 7,
             Event.get_entry_point 7 9,
             Event.run_main 9 2 ["app", "x"] ret NULL] ∧
      (∃ st4 st5 st6 : Nat,
        (fixedRuntime "app.dll" 7 9 4 NULL).dotnet_wasi_getentrypointassemblyname
          ((fixedRuntime "app.dll" 7 9 4 NULL).mono_wasm_load_runtime "" 0
            ([(· + 10), (· * 2)].foldl (fun st h => h st)
              ((fixedRuntime "app.dll" 7 9 4 NULL).dotnet_wasi_registerbundledassemblies 0)))
          = (name, st4) ∧
        (fixedRuntime "app.dll" 7 9 4 NULL).mono_assembly_open name NULL st4 = (7, st5) ∧
        (fixedRuntime "app.dll" 7 9 4 NULL).mono_wasi_assembly_get_entry_point 7 st5
          = (9, st6) ∧
        (fixedRuntime "app.dll" 7 9 4 NULL).mono_runtime_run_main 9 2 ["app", "x"] 5 st6
          = ((ret, NULL),
             (run (fixedRuntime "app.dll" 7 9 4 NULL) [(· + 10), (· * 2)] 5 2
               ["app", "x"] 0).2.rt)) ∧
      (run (fixedRuntime "app.dll" 7 9 4 NULL) [(· + 10), (· * 2)] 5 2 ["app", "x"] 0).2.stderr
        = "" ∧
      (∀ file out_length result, Event.getbundledfile file out_length result
        ∉ calls (fixedRuntime "app.dll" 7 9 4 NULL) [(· + 10), (· * 2)] 5 2
            ["app", "x"] 0) ∧
      (∀ exc, Event.print_unhandled_exception exc
        ∉ calls (fixedRuntime "app.dll" 7 9 4 NULL) [(· + 10), (· * 2)] 5 2
            ["app", "x"] 0) ∧
      (run (fixedRuntime "app.dll" 7 9 4 NULL) [(· + 10), (· * 2)] 5 2 ["app", "x"] 0).1
        = Outcome.returned ret :=
  ⟨by decide, by decide, by decide, by decide,
   normal_run_trace (fixedRuntime "app.dll" 7 9 4 NULL) [(· + 10), (· * 2)] 5 2 ["app", "x"] 0
    7 9 (by decide) (by decide)
    (by
      intro method c v ret exc h
      have ht : calls (fixedRuntime "app.dll" 7 9 4 NULL) [(· + 10), (· * 2)] 5 2
            ["app", "x"] 0
          = [Event.registerbundledassemblies, Event.after_runtime_loaded 0,
             Event.after_runtime_loaded 1, Event.load_runtime "" 0,
             Event.getentrypointassemblyname "app.dll",
             Event.assembly_open "app.dll" NULL 7, Event.get_entry_point 7 9,
             Event.run_main 9 2 ["app", "x"] 4 NULL] := by
        decide
      rw [ht] at h
      simp at h
      exact h.2.2.2.2)⟩

/-- C10: in a run in which entry-point resolution returned null,
`mono_runtime_run_main` receives no call and `mono_print_unhandled_exception`
receives none; and in every run `mono_print_unhandled_exception` receives at
most one call, it receives one exactly when `mono_runtime_run_main` received a
call and left a non-null exception handle, and the run then ends in the state
that `mono_print_unhandled_exception` of `R` left. -/
theorem managed_code_needs_entry_method (R : Runtime σ) (hooks : List (σ → σ))
    (out_exc : Handle) (argc : Int) (argv : List String) (s : σ) :
    ((∃ assembly, Event.get_entry_point assembly NULL
        ∈ calls R hooks out_exc argc argv s) →
      (∀ method c v ret exc, Event.run_main method c v ret exc
        ∉ calls R hooks out_exc argc argv s) ∧
      (∀ exc, Event.print_unhandled_exception exc
        ∉ calls R hooks out_exc argc argv s)) ∧
    (calls R hooks out_exc argc argv s).countP Event.is_print_unhandled_exception ≤ 1 ∧
    ((∃ exc, Event.print_unhandled_exception exc
        ∈ calls R hooks out_exc argc argv s) ↔
     (∃ method c v ret exc, Event.run_main method c v ret exc
        ∈ calls R hooks out_exc argc argv s ∧ exc ≠ NULL)) ∧
    (∀ exc, Event.print_unhandled_exception exc ∈ calls R hooks out_exc argc argv s →
      ∃ st : σ,
        (run R hooks out_exc argc argv s).2.rt = R.mono_print_unhandled_exception exc st) := by
  obtain ⟨name, a, m, h⟩ := run_shape R hooks out_exc argc argv s
  have hboot : List.countP Event.is_print_unhandled_exception
      (bootstrap_events hooks.length name a m) = 0 := by
    rw [List.countP_eq_zero]
    intro e he
    simp [bootstrap_events, hook_events] at he
    rcases he with rfl | ⟨i, -, rfl⟩ | rfl | rfl | rfl | rfl <;>
      simp [Event.is_print_unhandled_exception]
  rcases h with ⟨hm, _, ht, _⟩ | ⟨hm, ret, exc, (⟨hx, _, ht⟩ | ⟨hx, _, ht⟩), _⟩
  · rw [ht]
    refine ⟨fun _ => ⟨?_, ?_⟩, by simp [hboot], ?_, ?_⟩
    · intro method c v r e
      simp [bootstrap_events, hook_events]
    · intro e
      simp [bootstrap_events, hook_events]
    · simp [bootstrap_events, hook_events]
    · intro e he
      simp [bootstrap_events, hook_events] at he
  · rw [ht]
    refine ⟨?_, ?_, ?_, ?_⟩
    · rintro ⟨assembly, hin⟩
      simp [bootstrap_events, hook_events] at hin
      exact absurd hin.2.symm hm
    · simp [List.countP_append, hboot, List.countP_cons, Event.is_print_unhandled_exception]
    · simp [bootstrap_events, hook_events, hx]
    · intro e he
      simp [bootstrap_events, hook_events] at he
  · have hmain : Event.run_main m argc argv ret exc ∈ calls R hooks out_exc argc argv s := by
      rw [ht]; simp
    obtain ⟨-, -, st, -, hrt⟩ :=
      run_main_applied R hooks out_exc argc argv s m argc argv ret exc hmain
    rw [if_pos hx] at hrt
    rw [ht]
    refine ⟨?_, ?_, ?_, ?_⟩
    · rintro ⟨assembly, hin⟩
      simp [bootstrap_events, hook_events] at hin
      exact absurd hin.2.symm hm
    · simp [List.countP_append, hboot, List.countP_cons, Event.is_print_unhandled_exception]
    · simp only [bootstrap_events, hook_events]
      simp only [List.mem_append, List.mem_cons, List.mem_map, List.mem_range,
        List.mem_singleton]
      simp only [reduceCtorEq, false_or, or_false, and_false, exists_false, false_and,
        List.not_mem_nil, Event.print_unhandled_exception.injEq, Event.run_main.injEq,
        exists_eq, true_iff]
      exact ⟨m, argc, argv, ret, exc, ⟨rfl, rfl, rfl, rfl, rfl⟩, hx⟩
    · intro e he
      simp [bootstrap_events, hook_events] at he
      subst he
      exact ⟨_, hrt⟩

/-- C10 at three concrete runs: without entry point neither the entry method
nor the exception dump receives a call; when the entry method leaves the
exception `42` the dump of `42` is the one call the dump receives; when it
leaves none the dump receives no call. -/
theorem managed_code_needs_entry_method_witness :
    ((∀ method c v ret exc, Event.run_main method c v ret exc
        ∉ calls (fixedRuntime "app.dll" 7 NULL 0 42) [] 5 1 ["app"] 0) ∧
      (∀ exc, Event.print_unhandled_exception exc
        ∉ calls (fixedRuntime "app.dll" 7 NULL 0 42) [] 5 1 ["app"] 0)) ∧
    (Event.print_unhandled_exception 42
        ∈ calls (fixedRuntime "app.dll" 7 9 0 42) [] 5 1 ["app"] 0 ∧
      (calls (fixedRuntime "app.dll" 7 9 0 42) [] 5 1 ["app"] 0).countP
        Event.is_print_unhandled_exception = 1 ∧
      (∃ exc, Event.print_unhandled_exception exc
        ∈ calls (fixedRuntime "app.dll" 7 9 0 42) [] 5 1 ["app"] 0) ∧
      ∃ st : Nat,
        (run (fixedRuntime "app.dll" 7 9 0 42) [] 5 1 ["app"] 0).2.rt
          = (fixedRuntime "app.dll" 7 9 0 42).mono_print_unhandled_exception 42 st) ∧
    ¬ (∃ exc, Event.print_unhandled_exception exc
        ∈ calls (fixedRuntime "app.dll" 7 9 0 NULL) [] 5 1 ["app"] 0) :=
  ⟨(managed_code_needs_entry_method (fixedRuntime "app.dll" 7 NULL 0 42) [] 5 1
      ["app"] 0).1 ⟨7, by decide⟩,
   ⟨by decide, by decide,
    (managed_code_needs_entry_method (fixedRuntime "app.dll" 7 9 0 42) [] 5 1
      ["app"] 0).2.2.1.mpr ⟨9, 1, ["app"], 0, 42, by decide, by decide⟩,
    (managed_code_needs_entry_method (fixedRuntime "app.dll" 7 9 0 42) [] 5 1
      ["app"] 0).2.2.2 42 (by decide)⟩,
   fun hprint => by
    obtain ⟨method, c, v, ret, exc, hin, hexc⟩ :=
      (managed_code_needs_entry_method (fixedRuntime "app.dll" 7 9 0 NULL) [] 5 1
        ["app"] 0).2.2.1.mp hprint
    have ht : calls (fixedRuntime "app.dll" 7 9 0 NULL) [] 5 1 ["app"] 0
        = [Event.registerbundledassemblies, Event.load_runtime "" 0,
           Event.getentrypointassemblyname "app.dll",
           Event.assembly_open "app.dll" NULL 7, Event.get_entry_point 7 9,
           Event.run_main 9 1 ["app"] 0 NULL] := by
      decide
    rw [ht] at hin
    simp at hin
    exact hexc hin.2.2.2.2⟩

end WasiMain
